import Mathlib

/-!
Verification of the DfuSe container decoder and extraction policy of
`dfuse-extract` (files `src/dfuse_extract.py` and `src/dfuse-extract.py`).

Bytes are modelled as `Nat` (values 0..255 in well-formed inputs); a Python
binary file object opened for reading is a pair of its contents and the
current read position.  `f.read(n)` returns at most `n` bytes and never
fails (at end of file it returns fewer bytes), exactly as in Python.
Fallible operations return `Except PErr`.
-/

/-- A seekable byte source: the contents of the opened file together with
the current read position, mirroring a Python binary file object. -/
structure ByteFile where
  data : List Nat
  pos : Nat
deriving Repr, DecidableEq

/-- Decode-time failures.  The Python sources signal errors with
`RuntimeError` (messages named in the constructors below) or with built-in
exceptions (`struct.error` for a short `struct.unpack` buffer,
`UnicodeDecodeError` from `bytes.decode`, `IndexError` from indexing an
empty list, `OSError` from a negative seek).  The constructors
`unexpectedEof` and `emptyImage` are the typed failures named by the
specification; the Python code never raises either, and keeping them in the
type lets theorems state that fact. -/
inductive PErr where
  | suffixSignatureMismatch
  | suffixCrcMismatch
  | prefixSignatureMismatch
  | versionMismatch
  | structError
  | unicodeDecodeError
  | indexError
  | seekError
  | unexpectedEof
  | emptyImage
deriving Repr, DecidableEq

/-- Non-fatal warnings surfaced to the caller.  `crcIgnored` models the
`Warning: suffix CRC mismatch (ignored)` message printed to stderr when
`--ignore-crc` is set. -/
inductive Warning where
  | crcIgnored
deriving Repr, DecidableEq

/-- Python `f.read(n)`: return up to `n` bytes from the current position and
advance the position by the number of bytes actually returned. -/
def readN (n : Nat) (f : ByteFile) : List Nat × ByteFile :=
  let bs := (f.data.drop f.pos).take n
  (bs, ⟨f.data, f.pos + bs.length⟩)

/-- Python `f.read()`: return all bytes from the current position to the end
and advance the position past them. -/
def readAll (f : ByteFile) : List Nat × ByteFile :=
  let bs := f.data.drop f.pos
  (bs, ⟨f.data, f.pos + bs.length⟩)

/-- Python `f.seek(k)` (absolute). -/
def seekAbs (k : Nat) (f : ByteFile) : ByteFile :=
  ⟨f.data, k⟩

/-- Python `f.seek(-off, 2)` (relative to end of file).  Seeking to a
negative offset on a real file raises `OSError`. -/
def seekEnd (off : Nat) (f : ByteFile) : Except PErr ByteFile :=
  if off ≤ f.data.length then .ok ⟨f.data, f.data.length - off⟩
  else .error .seekError

/-- Little-endian interpretation of a byte list as an unsigned integer, as
done by `struct.unpack` with format characters `B`, `H`, `I`. -/
def leNat (bs : List Nat) : Nat :=
  bs.foldr (fun b acc => b + 256 * acc) 0

/-- Modelled from the spec: the repository imports a module `dfu_crc`
(not present under `src/`) providing `dfu_crc(data)`.  Per spec section 4.1
this is the standard CRC-32/ISO-HDLC: reflected, polynomial `0xEDB88320`,
initial value `0xFFFFFFFF`, final XOR `0xFFFFFFFF`, processed bit by bit.
One bit step of that computation. -/
def crcStep1 (c : Nat) : Nat :=
  if c % 2 = 1 then (c / 2) ^^^ 0xEDB88320 else c / 2

/-- Modelled from the spec: eight bit steps, i.e. one byte of the CRC-32
computation after the byte has been XORed into the low bits. -/
def crcByte (c : Nat) : Nat :=
  crcStep1 (crcStep1 (crcStep1 (crcStep1 (crcStep1 (crcStep1 (crcStep1 (crcStep1 c)))))))

/-- Modelled from the spec: `dfu_crc.dfu_crc(data)`, the CRC-32/ISO-HDLC of
`data` (initial value `0xFFFFFFFF`, reflected, final XOR `0xFFFFFFFF`). -/
def dfu_crc (data : List Nat) : Nat :=
  (data.foldl (fun c b => crcByte (c ^^^ b)) 0xFFFFFFFF) ^^^ 0xFFFFFFFF

/-- Bytes of `c_str` up to (excluding) the first null byte:
`c_str.split(b'\0', 1)[0]`. -/
def takeUntilNull : List Nat → List Nat
  | [] => []
  | b :: bs => if b = 0 then [] else b :: takeUntilNull bs

/-- Python `bytes.decode('ascii')`: fails with `UnicodeDecodeError` when any
byte is 128 or above, otherwise yields the corresponding character string. -/
def asciiDecode (bs : List Nat) : Except PErr String :=
  if bs.all (fun b => b < 128) then .ok (String.mk (bs.map Char.ofNat))
  else .error .unicodeDecodeError

/-- `c_str_to_str` (src/dfuse_extract.py lines 34-36): split at the first
null byte and decode the head as ASCII. -/
def c_str_to_str (c_str : List Nat) : Except PErr String :=
  asciiDecode (takeUntilNull c_str)

/-- The `DFUSuffix` namedtuple (src/dfuse_extract.py lines 19-21). -/
structure DFUSuffix where
  device : Nat
  usb_pid : Nat
  usb_vid : Nat
  dfu_spec : Nat
  signature : List Nat
  length : Nat
  crc : Nat
deriving Repr, DecidableEq

/-- The `DFUPrefix` namedtuple (src/dfuse_extract.py lines 23-25); named
`DFUHeader` here. -/
structure DFUHeader where
  signature : List Nat
  version : Nat
  file_size : Nat
  image_count : Nat
deriving Repr, DecidableEq

/-- The `TargetPrefix` namedtuple (src/dfuse_extract.py lines 27-29); named
`TargetHeader` here. -/
structure TargetHeader where
  signature : List Nat
  alternate_setting : Nat
  is_target_named : Nat
  target_name : List Nat
  image_size : Nat
  element_count : Nat
deriving Repr, DecidableEq

/-- The `ImageElement` namedtuple (src/dfuse_extract.py line 32): a target
memory address and the raw payload bytes. -/
structure ImageElement where
  address : Nat
  data : List Nat
deriving Repr, DecidableEq

/-- The `Image` namedtuple (src/dfuse_extract.py line 31). -/
structure Image where
  alternate_setting : Nat
  target_name : Option String
  elements : List ImageElement
deriving Repr, DecidableEq

/-- `struct.unpack('< H H H H 3s B I', b)`: fails with `struct.error` unless
the buffer is exactly 16 bytes. -/
def unpackSuffix (bs : List Nat) : Except PErr DFUSuffix :=
  if bs.length = 16 then
    .ok { device := leNat (bs.take 2)
        , usb_pid := leNat ((bs.drop 2).take 2)
        , usb_vid := leNat ((bs.drop 4).take 2)
        , dfu_spec := leNat ((bs.drop 6).take 2)
        , signature := (bs.drop 8).take 3
        , length := leNat ((bs.drop 11).take 1)
        , crc := leNat ((bs.drop 12).take 4) }
  else .error .structError

/-- `struct.unpack('< 5s B I B', b)`: fails with `struct.error` unless the
buffer is exactly 11 bytes. -/
def unpackDFUHeader (bs : List Nat) : Except PErr DFUHeader :=
  if bs.length = 11 then
    .ok { signature := bs.take 5
        , version := leNat ((bs.drop 5).take 1)
        , file_size := leNat ((bs.drop 6).take 4)
        , image_count := leNat ((bs.drop 10).take 1) }
  else .error .structError

/-- `struct.unpack('< 6s B I 255s I I', b)`: fails with `struct.error`
unless the buffer is exactly 274 bytes. -/
def unpackTargetHeader (bs : List Nat) : Except PErr TargetHeader :=
  if bs.length = 274 then
    .ok { signature := bs.take 6
        , alternate_setting := leNat ((bs.drop 6).take 1)
        , is_target_named := leNat ((bs.drop 7).take 4)
        , target_name := (bs.drop 11).take 255
        , image_size := leNat ((bs.drop 266).take 4)
        , element_count := leNat ((bs.drop 270).take 4) }
  else .error .structError

/-- The ASCII bytes of the literal `'UFD'`. -/
def ufdSignature : List Nat := [0x55, 0x46, 0x44]

/-- The ASCII bytes of the literal `'DfuSe'`. -/
def dfuseSignature : List Nat := [0x44, 0x66, 0x75, 0x53, 0x65]

/-- `DfuseFile.read_dfu_suffix` (src/dfuse_extract.py lines 50-76): seek to
16 bytes before the end, read and unpack the suffix, seek back to offset 0,
check the `'UFD'` signature, recompute the CRC over everything except the
final 4 bytes, seek back to offset 0 again, and compare with the stored CRC
(a mismatch is fatal unless `ignore_crc` is set, in which case a warning is
surfaced). -/
def read_dfu_suffix (ignore_crc : Bool) (f : ByteFile) :
    Except PErr (DFUSuffix × List Warning × ByteFile) :=
  match seekEnd 16 f with
  | .error e => .error e
  | .ok f =>
    let r := readN 16 f
    match unpackSuffix r.1 with
    | .error e => .error e
    | .ok dfu_suffix =>
      let f := seekAbs 0 r.2
      if dfu_suffix.signature = ufdSignature then
        let a := readAll f
        let crc_data := a.1.take (a.1.length - 4)
        let crc := dfu_crc crc_data
        let f := seekAbs 0 a.2
        if dfu_suffix.crc = crc then .ok (dfu_suffix, [], f)
        else if ignore_crc then .ok (dfu_suffix, [.crcIgnored], f)
        else .error .suffixCrcMismatch
      else .error .suffixSignatureMismatch

/-- `DfuseFile.read_dfu_prefix` (src/dfuse_extract.py lines 78-93): read 11
bytes, unpack, check the `'DfuSe'` signature and the version byte. -/
def read_dfu_header (f : ByteFile) : Except PErr (DFUHeader × ByteFile) :=
  let r := readN 11 f
  match unpackDFUHeader r.1 with
  | .error e => .error e
  | .ok hdr =>
    if hdr.signature = dfuseSignature then
      if hdr.version = 0x01 then .ok (hdr, r.2)
      else .error .versionMismatch
    else .error .prefixSignatureMismatch

/-- `DfuseFile.read_image_element` (src/dfuse_extract.py lines 115-123):
read an 8-byte header, unpack address and size, then read `size` bytes of
payload.  As in Python, the payload read returns fewer bytes when fewer
remain; only a short header buffer fails (`struct.error`). -/
def read_image_element (f : ByteFile) : Except PErr (ImageElement × ByteFile) :=
  let r := readN 8 f
  if r.1.length = 8 then
    let address := leNat (r.1.take 4)
    let size := leNat (r.1.drop 4)
    let d := readN size r.2
    .ok (⟨address, d.1⟩, d.2)
  else .error .structError

/-- The element loop of `DfuseFile.read_image` (src/dfuse_extract.py lines
101-104): exactly `n` iterations of `read_image_element`. -/
def read_image_elements : Nat → ByteFile → Except PErr (List ImageElement × ByteFile)
  | 0, f => .ok ([], f)
  | n + 1, f =>
    match read_image_element f with
    | .error e => .error e
    | .ok (el, f) =>
      match read_image_elements n f with
      | .error e => .error e
      | .ok (els, f) => .ok (el :: els, f)

/-- `DfuseFile.read_image` (src/dfuse_extract.py lines 95-113): read and
unpack the 274-byte target header, read `element_count` elements, then
decode the target name only when the 4-byte `is_target_named` field is
nonzero. -/
def read_image (f : ByteFile) : Except PErr (Image × ByteFile) :=
  let r := readN 274 f
  match unpackTargetHeader r.1 with
  | .error e => .error e
  | .ok target_hdr =>
    match read_image_elements target_hdr.element_count r.2 with
    | .error e => .error e
    | .ok (elements, f) =>
      if target_hdr.is_target_named ≠ 0 then
        match c_str_to_str target_hdr.target_name with
        | .error e => .error e
        | .ok s => .ok (⟨target_hdr.alternate_setting, some s, elements⟩, f)
      else .ok (⟨target_hdr.alternate_setting, none, elements⟩, f)

/-- The image loop of `DfuseFile.__init__` (src/dfuse_extract.py lines
45-48): exactly `n` iterations of `read_image`. -/
def read_images : Nat → ByteFile → Except PErr (List Image × ByteFile)
  | 0, f => .ok ([], f)
  | n + 1, f =>
    match read_image f with
    | .error e => .error e
    | .ok (img, f) =>
      match read_images n f with
      | .error e => .error e
      | .ok (imgs, f) => .ok (img :: imgs, f)

/-- The decoded file: the validated suffix and the image list
(`DfuseFile.__init__`, src/dfuse_extract.py lines 39-48). -/
structure DfuseFile where
  dfu_suffix : DFUSuffix
  images : List Image
deriving Repr, DecidableEq

/-- `DfuseFile.__init__` (src/dfuse_extract.py lines 39-48) on a freshly
opened file: read the suffix (with CRC check), the 11-byte header, then
`image_count` images.  Returns the decoded tree and the surfaced warnings. -/
def decodeDfuse (ignore_crc : Bool) (data : List Nat) :
    Except PErr (DfuseFile × List Warning) :=
  match read_dfu_suffix ignore_crc ⟨data, 0⟩ with
  | .error e => .error e
  | .ok (dfu_suffix, warns, f) =>
    match read_dfu_header f with
    | .error e => .error e
    | .ok (hdr, f) =>
      match read_images hdr.image_count f with
      | .error e => .error e
      | .ok (images, _) => .ok (⟨dfu_suffix, images⟩, warns)

/-- The value of the 4-byte `is_target_named` field of the target header
that `read_image` reads at the current position of `f`. -/
def targetNamedField (f : ByteFile) : Nat :=
  leNat (((f.data.drop f.pos).drop 7).take 4)

/-- The 255-byte raw `target_name` field of the target header that
`read_image` reads at the current position of `f`. -/
def nameField (f : ByteFile) : List Nat :=
  ((f.data.drop f.pos).drop 11).take 255

/-- Python `len(image_element)` where `image_element` is the two-field
namedtuple `ImageElement(address, data)`: the length of a namedtuple is its
field count, so this is 2 for every element.  This is exactly what
`save_metadata.image_element_metadata` (src/dfuse_extract.py line 214)
computes with `len(image_element)`. -/
def ImageElement.pyLen (_ : ImageElement) : Nat := 2

/-- One element record of the metadata document: keys `address` and
`size`. -/
structure ElementMeta where
  address : Nat
  size : Nat
deriving Repr, DecidableEq

/-- One image record of the metadata document: keys `alternate_setting`,
`elements` and, only when present, `target_name` (`none` models the key
being omitted). -/
structure ImageMeta where
  alternate_setting : Nat
  target_name : Option String
  elements : List ElementMeta
deriving Repr, DecidableEq

/-- `save_metadata.image_element_metadata` (src/dfuse_extract.py lines
211-215): `address` is the element address and `size` is
`len(image_element)` — the namedtuple field count. -/
def image_element_metadata (image_element : ImageElement) : ElementMeta :=
  { address := image_element.address
  , size := image_element.pyLen }

/-- Python truthiness of `image.target_name`: `None` and the empty string
are falsy, any other string is truthy. -/
def pyTruthy : Option String → Bool
  | none => false
  | some s => s ≠ ""

/-- `save_metadata.image_metadata` (src/dfuse_extract.py lines 217-226):
the `target_name` key is added only when `image.target_name` is truthy. -/
def image_metadata (image : Image) : ImageMeta :=
  { alternate_setting := image.alternate_setting
  , target_name := if pyTruthy image.target_name then image.target_name else none
  , elements := image.elements.map image_element_metadata }

/-- `save_metadata` (src/dfuse_extract.py lines 210-229): one record per
image, images in decode order. -/
def save_metadata (dfuse_file : DfuseFile) : List ImageMeta :=
  dfuse_file.images.map image_metadata

namespace Hyphen

/-- The `ImageElement` namedtuple of the other source file
(src/dfuse-extract.py line 24): it additionally stores the header `size`
field, and the payload is `None` in header-only mode. -/
structure ImageElement where
  address : Nat
  size : Nat
  data : Option (List Nat)
deriving Repr, DecidableEq

/-- `DfuseFile.read_image_element` of src/dfuse-extract.py (lines 79-93):
read the 8-byte header; with `read_data` set, read `size` payload bytes,
otherwise skip them with a relative seek. -/
def read_image_element (read_data : Bool) (f : ByteFile) :
    Except PErr (ImageElement × ByteFile) :=
  let r := readN 8 f
  if r.1.length = 8 then
    let address := leNat (r.1.take 4)
    let size := leNat (r.1.drop 4)
    if read_data then
      let d := readN size r.2
      .ok (⟨address, size, some d.1⟩, d.2)
    else
      .ok (⟨address, size, none⟩, ⟨r.2.data, r.2.pos + size⟩)
  else .error .structError

/-- `save_metadata.image_element_metadata` of src/dfuse-extract.py (lines
153-157): the `size` key is the size field decoded from the element header,
not the payload length. -/
def image_element_metadata (image_element : ImageElement) : ElementMeta :=
  { address := image_element.address
  , size := image_element.size }

end Hyphen

/-- An output sink opened with `open(filename, 'wb')`: the bytes written so
far and the current write position. -/
structure Sink where
  content : List Nat
  pos : Nat
deriving Repr, DecidableEq

/-- Writing `bs` into `content` at offset `pos`: bytes before `pos` are
kept (the file is zero-filled up to `pos` when it is shorter, matching a
sparse write), `bs` overwrites the next `bs.length` bytes, and bytes beyond
`pos + bs.length` are kept. -/
def writeAt (content : List Nat) (pos : Nat) (bs : List Nat) : List Nat :=
  (content.take pos ++ List.replicate (pos - content.length) 0) ++ bs
    ++ content.drop (pos + bs.length)

/-- Python `f.seek(k)` on a writable file, where `k` may be a negative
integer: a negative target raises `OSError`. -/
def Sink.seek (k : Int) (s : Sink) : Except PErr Sink :=
  if k < 0 then .error .seekError else .ok ⟨s.content, k.toNat⟩

/-- Python `f.write(bs)` on a writable file. -/
def Sink.write (bs : List Nat) (s : Sink) : Sink :=
  ⟨writeAt s.content s.pos bs, s.pos + bs.length⟩

/-- The start-address computation of `action_extract_single`
(src/dfuse_extract.py lines 196-200): start from the given address and
lower it on every element whose address is smaller. -/
def imageBase (a0 : Nat) (els : List ImageElement) : Nat :=
  els.foldl (fun acc e => if acc > e.address then e.address else acc) a0

/-- An uppercase hexadecimal digit, as produced by Python format `{:X}`. -/
def hexDigit (n : Nat) : Char :=
  if n < 10 then Char.ofNat (0x30 + n) else Char.ofNat (0x37 + n)

/-- Hex digits of `n`, least significant first; the first argument is
recursion fuel (taking `fuel = n` suffices since `n / 16 < n`). -/
def hexRev : Nat → Nat → List Char
  | 0, _ => []
  | _ + 1, 0 => []
  | fuel + 1, n + 1 => hexDigit ((n + 1) % 16) :: hexRev fuel ((n + 1) / 16)

/-- Python format `{:X}`: uppercase hexadecimal, no padding, `0` for 0. -/
def natToHexUpper (n : Nat) : String :=
  if n = 0 then "0" else String.mk (hexRev n n).reverse

/-- The write loop of `action_extract_single` (src/dfuse_extract.py lines
203-205): for each element in decode order, seek the sink to
`address - start_address` and write the payload. -/
def mergeGo (start_address : Nat) : List ImageElement → Sink → Except PErr Sink
  | [], s => .ok s
  | e :: es, s =>
    match Sink.seek ((e.address : Int) - (start_address : Int)) s with
    | .error err => .error err
    | .ok s => mergeGo start_address es (Sink.write e.data s)

/-- The per-image body of `action_extract_single` (src/dfuse_extract.py
lines 194-207): take `elements[0].address` (raising `IndexError` on an
empty element list), lower it over all elements to find the lowest address,
open the sink `image<i>_0x<BASE>.bin`, and for each element in decode order
seek to `address - start_address` and write the payload. -/
def extract_single_image (image_index : Nat) (image : Image) :
    Except PErr (String × List Nat) :=
  match image.elements with
  | [] => .error .indexError
  | e0 :: _ =>
    let start_address := imageBase e0.address image.elements
    let filename :=
      "image" ++ toString image_index ++ "_0x" ++ natToHexUpper start_address ++ ".bin"
    match mergeGo start_address image.elements ⟨[], 0⟩ with
    | .error err => .error err
    | .ok s => .ok (filename, s.content)

/-- `action_extract_single` (src/dfuse_extract.py lines 194-207) over the
whole decoded file: images in decode order, with their indices; an
`IndexError` on one image aborts the rest, as an unhandled Python exception
does. -/
def action_extract_single : Nat → List Image → Except PErr (List (String × List Nat))
  | _, [] => .ok []
  | i, img :: rest =>
    match extract_single_image i img with
    | .error e => .error e
    | .ok out =>
      match action_extract_single (i + 1) rest with
      | .error e => .error e
      | .ok outs => .ok (out :: outs)

/-- The pure content of the merged image: fold the elements in decode order,
writing each payload at offset `address - base` of an initially empty
sink. -/
def mergeWrites (base : Nat) (els : List ImageElement) : List Nat :=
  els.foldl (fun c e => writeAt c (e.address - base) e.data) []

/-- A 16-byte input consisting only of a DFU suffix: zero device fields, the
`'UFD'` signature, length byte 16, and a stored CRC of 0 (which does not
match the recomputed CRC of the first 12 bytes). -/
def suffixOnly16 : List Nat :=
  [0, 0, 0, 0, 0, 0, 0, 0, 0x55, 0x46, 0x44, 16, 0, 0, 0, 0]

/-- The 11-byte DfuSe header of the sample file: signature `'DfuSe'`,
version 1, file_size field 0, image_count 1. -/
def sampleHdr11 : List Nat :=
  [0x44, 0x66, 0x75, 0x53, 0x65, 0x01, 0, 0, 0, 0, 1]

/-- A complete 27-byte input: a DfuSe header declaring zero images followed
directly by the suffix (whose stored CRC of 0 is wrong, so decoding needs
`ignore_crc`). -/
def emptyImagesFile : List Nat :=
  [0x44, 0x66, 0x75, 0x53, 0x65, 0x01, 0, 0, 0, 0, 0] ++ suffixOnly16

/-- The 274-byte target header of the sample file: signature `'Target'`,
alternate setting 7, `is_target_named` 1, name field `'ABC'` then nulls,
image_size field 12, element_count 1. -/
def sampleTarget274 : List Nat :=
  [0x54, 0x61, 0x72, 0x67, 0x65, 0x74] ++ [7] ++ [1, 0, 0, 0]
    ++ ([0x41, 0x42, 0x43] ++ List.replicate 252 0)
    ++ [12, 0, 0, 0] ++ [1, 0, 0, 0]

/-- The 12-byte sample element: address 0x1000, size 4, payload
`AA AA AA AA`. -/
def sampleElement12 : List Nat :=
  [0x00, 0x10, 0, 0] ++ [4, 0, 0, 0] ++ [0xAA, 0xAA, 0xAA, 0xAA]

/-- The full sample file: header, one image with one element, and a suffix
whose stored CRC of 0 is wrong (so decoding needs `ignore_crc`). -/
def sampleFile : List Nat :=
  sampleHdr11 ++ sampleTarget274 ++ sampleElement12 ++ suffixOnly16

/-- A 274-byte target header whose `is_target_named` field is 1 but whose
255-byte name field starts with a null byte, with no elements. -/
def nullNamedTarget274 : List Nat :=
  [0x54, 0x61, 0x72, 0x67, 0x65, 0x74] ++ [3] ++ [1, 0, 0, 0]
    ++ List.replicate 255 0 ++ [0, 0, 0, 0] ++ [0, 0, 0, 0]

/-- Equality of `Except` results is decidable, so theorems about concrete
inputs can be settled by evaluation. -/
instance {ε α : Type} [DecidableEq ε] [DecidableEq α] : DecidableEq (Except ε α) :=
  fun x y =>
    match x, y with
    | .error a, .error b =>
      if h : a = b then .isTrue (by rw [h]) else .isFalse (by intro hc; cases hc; exact h rfl)
    | .ok a, .ok b =>
      if h : a = b then .isTrue (by rw [h]) else .isFalse (by intro hc; cases hc; exact h rfl)
    | .error _, .ok _ => .isFalse (by intro hc; cases hc)
    | .ok _, .error _ => .isFalse (by intro hc; cases hc)

/-- The last 16 bytes of an input: the stored DFU suffix record. -/
def storedSuffixBytes (data : List Nat) : List Nat :=
  data.drop (data.length - 16)

/-- The 3-byte signature field of the stored suffix. -/
def storedSuffixSig (data : List Nat) : List Nat :=
  ((storedSuffixBytes data).drop 8).take 3

/-- The stored CRC field: the last 4 bytes of the input, little-endian. -/
def storedCrc (data : List Nat) : Nat :=
  leNat (((storedSuffixBytes data).drop 12).take 4)

/-- The CRC-32 recomputed over all input bytes except the final 4. -/
def computedCrc (data : List Nat) : Nat :=
  dfu_crc (data.take (data.length - 4))

/-- Helper: a successful `seekEnd` keeps the contents and lands `off` bytes
before the end. -/
theorem seekEnd_ok {off : Nat} {f f' : ByteFile} (h : seekEnd off f = .ok f') :
    f'.data = f.data ∧ f'.pos = f.data.length - off := by
  unfold seekEnd at h
  split at h
  · cases h
    exact ⟨rfl, rfl⟩
  · cases h

/-- Helper: the element loop returns exactly as many elements as it was
asked for. -/
theorem read_image_elements_length :
    ∀ (n : Nat) (f : ByteFile) (r : List ImageElement × ByteFile),
      read_image_elements n f = .ok r → r.1.length = n := by
  intro n
  induction n with
  | zero =>
    intro f r h
    unfold read_image_elements at h
    cases h
    rfl
  | succ n ih =>
    intro f r h
    unfold read_image_elements at h
    split at h
    · cases h
    · split at h
      · cases h
      · cases h
        simpa using ih _ _ (by assumption)

/-- Helper: the image loop returns exactly as many images as it was asked
for. -/
theorem read_images_length :
    ∀ (n : Nat) (f : ByteFile) (r : List Image × ByteFile),
      read_images n f = .ok r → r.1.length = n := by
  intro n
  induction n with
  | zero =>
    intro f r h
    unfold read_images at h
    cases h
    rfl
  | succ n ih =>
    intro f r h
    unfold read_images at h
    split at h
    · cases h
    · split at h
      · cases h
      · cases h
        simpa using ih _ _ (by assumption)

/-- Helper: the only failure of `read_image_element` is a short header
buffer. -/
theorem read_image_element_error {f : ByteFile} {e : PErr}
    (h : read_image_element f = .error e) : e = .structError := by
  unfold read_image_element at h
  dsimp only at h
  split at h
  · cases h
  · cases h
    rfl

/-- Helper: the only failure of the element loop is a short header
buffer. -/
theorem read_image_elements_error :
    ∀ {n : Nat} {f : ByteFile} {e : PErr},
      read_image_elements n f = .error e → e = .structError := by
  intro n
  induction n with
  | zero =>
    intro f e h
    unfold read_image_elements at h
    cases h
  | succ n ih =>
    intro f e h
    unfold read_image_elements at h
    split at h
    · cases h
      exact read_image_element_error (by assumption)
    · split at h
      · cases h
        exact ih (by assumption)
      · cases h

/-- Helper: classification of `read_dfu_header` failures. -/
theorem read_dfu_header_error {f : ByteFile} {e : PErr}
    (h : read_dfu_header f = .error e) :
    e = .structError ∨ e = .prefixSignatureMismatch ∨ e = .versionMismatch := by
  unfold read_dfu_header at h
  dsimp only at h
  split at h
  · cases h
    rename_i heq
    unfold unpackDFUHeader at heq
    split at heq
    · cases heq
    · cases heq
      simp
  · split at h
    · split at h
      · cases h
      · cases h
        simp
    · cases h
      simp

/-- Helper: classification of `read_image` failures. -/
theorem read_image_error {f : ByteFile} {e : PErr}
    (h : read_image f = .error e) :
    e = .structError ∨ e = .unicodeDecodeError := by
  unfold read_image at h
  dsimp only at h
  split at h
  · cases h
    rename_i heq
    unfold unpackTargetHeader at heq
    split at heq
    · cases heq
    · cases heq
      simp
  · split at h
    · cases h
      exact Or.inl (read_image_elements_error (by assumption))
    · split at h
      · split at h
        · cases h
          rename_i hstr
          unfold c_str_to_str asciiDecode at hstr
          split at hstr
          · cases hstr
          · cases hstr
            simp
        · cases h
      · cases h

/-- Helper: classification of the image-loop failures. -/
theorem read_images_error :
    ∀ {n : Nat} {f : ByteFile} {e : PErr},
      read_images n f = .error e → e = .structError ∨ e = .unicodeDecodeError := by
  intro n
  induction n with
  | zero =>
    intro f e h
    unfold read_images at h
    cases h
  | succ n ih =>
    intro f e h
    unfold read_images at h
    split at h
    · cases h
      exact read_image_error (by assumption)
    · split at h
      · cases h
        exact ih (by assumption)
      · cases h

/-- Helper: a `seekEnd` failure is a seek error. -/
theorem seekEnd_error {off : Nat} {f : ByteFile} {e : PErr}
    (h : seekEnd off f = .error e) : e = .seekError := by
  unfold seekEnd at h
  split at h
  · cases h
  · cases h
    rfl

/-- Helper: an `unpackSuffix` failure is a short-buffer error. -/
theorem unpackSuffix_error {bs : List Nat} {e : PErr}
    (h : unpackSuffix bs = .error e) : e = .structError := by
  unfold unpackSuffix at h
  split at h
  · cases h
  · cases h
    rfl

/-- Helper: the `ignore_crc` flag changes nothing except the handling of a
CRC mismatch: either both runs of the suffix reader agree exactly (and no
CRC mismatch is reported), or the strict run fails with the CRC mismatch
while the ignoring run succeeds with the warning. -/
theorem read_dfu_suffix_ignore (f : ByteFile) :
    (read_dfu_suffix true f = read_dfu_suffix false f
      ∧ read_dfu_suffix false f ≠ .error .suffixCrcMismatch
      ∧ ∀ r, read_dfu_suffix false f = Except.ok r → r.2.1 = [])
    ∨ (read_dfu_suffix false f = .error .suffixCrcMismatch
      ∧ ∃ s f', read_dfu_suffix true f = .ok (s, [Warning.crcIgnored], f')) := by
  rcases hseek : seekEnd 16 f with e | f1
  · have he := seekEnd_error hseek
    subst he
    left
    refine ⟨?_, ?_, ?_⟩ <;> simp [read_dfu_suffix, hseek]
  · rcases hs : unpackSuffix (readN 16 f1).1 with e | sfx
    · have he := unpackSuffix_error hs
      subst he
      left
      refine ⟨?_, ?_, ?_⟩ <;> simp [read_dfu_suffix, hseek, hs]
    · by_cases hsig : sfx.signature = ufdSignature
      · by_cases hcrc : sfx.crc =
            dfu_crc (List.take ((readAll (seekAbs 0 (readN 16 f1).2)).1.length - 4)
              (readAll (seekAbs 0 (readN 16 f1).2)).1)
        · left
          refine ⟨?_, ?_, ?_⟩
          · simp [read_dfu_suffix, hseek, hs, hsig, hcrc]
          · simp [read_dfu_suffix, hseek, hs, hsig, hcrc]
          · intro r hr
            simp [read_dfu_suffix, hseek, hs, hsig, hcrc] at hr
            simp [← hr]
        · right
          constructor
          · simp [read_dfu_suffix, hseek, hs, hsig, hcrc]
          · exact ⟨sfx, seekAbs 0 (readAll (seekAbs 0 (readN 16 f1).2)).2,
              by simp [read_dfu_suffix, hseek, hs, hsig, hcrc]⟩
      · left
        refine ⟨?_, ?_, ?_⟩ <;> simp [read_dfu_suffix, hseek, hs, hsig]

/-- Helper: on an input that reaches the CRC comparison (at least 16 bytes,
valid `'UFD'` signature) whose stored CRC differs from the recomputed one,
the strict suffix reader fails with the CRC mismatch and the ignoring one
returns successfully, surfacing exactly the ignored-CRC warning and
restoring position 0. -/
theorem read_dfu_suffix_crc_mismatch (data : List Nat)
    (hlen : 16 ≤ data.length)
    (hsig : storedSuffixSig data = ufdSignature)
    (hcrc : storedCrc data ≠ computedCrc data) :
    read_dfu_suffix false ⟨data, 0⟩ = .error .suffixCrcMismatch
    ∧ ∃ s, read_dfu_suffix true ⟨data, 0⟩ = .ok (s, [Warning.crcIgnored], ⟨data, 0⟩)
        ∧ s.crc = storedCrc data ∧ s.signature = ufdSignature := by
  have hdl : (storedSuffixBytes data).length = 16 := by
    simp only [storedSuffixBytes, List.length_drop]
    omega
  have hseek : seekEnd 16 (⟨data, 0⟩ : ByteFile) = .ok ⟨data, data.length - 16⟩ := by
    simp [seekEnd, hlen]
  have hread : readN 16 ⟨data, data.length - 16⟩ =
      (storedSuffixBytes data, ⟨data, (data.length - 16) + 16⟩) := by
    simp only [readN, storedSuffixBytes]
    rw [List.take_of_length_le (by rw [List.length_drop]; omega)]
    rw [List.length_drop]
    have h16 : data.length - (data.length - 16) = 16 := by omega
    rw [h16]
  have hun : unpackSuffix (storedSuffixBytes data) =
      .ok { device := leNat ((storedSuffixBytes data).take 2)
          , usb_pid := leNat (((storedSuffixBytes data).drop 2).take 2)
          , usb_vid := leNat (((storedSuffixBytes data).drop 4).take 2)
          , dfu_spec := leNat (((storedSuffixBytes data).drop 6).take 2)
          , signature := ((storedSuffixBytes data).drop 8).take 3
          , length := leNat (((storedSuffixBytes data).drop 11).take 1)
          , crc := leNat (((storedSuffixBytes data).drop 12).take 4) } := by
    unfold unpackSuffix
    rw [if_pos hdl]
  have hall : readAll (⟨data, 0⟩ : ByteFile) = (data, ⟨data, 0 + data.length⟩) := by
    simp [readAll]
  have hfalse : read_dfu_suffix false ⟨data, 0⟩ = .error .suffixCrcMismatch := by
    simp only [read_dfu_suffix, hseek, hread, hun, hall, seekAbs]
    rw [if_pos (show ((storedSuffixBytes data).drop 8).take 3 = ufdSignature from hsig)]
    rw [if_neg (show ¬ leNat (((storedSuffixBytes data).drop 12).take 4) =
        dfu_crc (data.take (data.length - 4)) from hcrc)]
    simp
  have htrue : read_dfu_suffix true ⟨data, 0⟩ =
      .ok ({ device := leNat ((storedSuffixBytes data).take 2)
           , usb_pid := leNat (((storedSuffixBytes data).drop 2).take 2)
           , usb_vid := leNat (((storedSuffixBytes data).drop 4).take 2)
           , dfu_spec := leNat (((storedSuffixBytes data).drop 6).take 2)
           , signature := ((storedSuffixBytes data).drop 8).take 3
           , length := leNat (((storedSuffixBytes data).drop 11).take 1)
           , crc := leNat (((storedSuffixBytes data).drop 12).take 4) },
           [Warning.crcIgnored], ⟨data, 0⟩) := by
    simp only [read_dfu_suffix, hseek, hread, hun, hall, seekAbs]
    rw [if_pos (show ((storedSuffixBytes data).drop 8).take 3 = ufdSignature from hsig)]
    rw [if_neg (show ¬ leNat (((storedSuffixBytes data).drop 12).take 4) =
        dfu_crc (data.take (data.length - 4)) from hcrc)]
    simp
  exact ⟨hfalse, _, htrue, rfl, hsig⟩

/-- Helper: the start-address fold never exceeds its initial value. -/
theorem imageBase_le_init (a : Nat) (els : List ImageElement) :
    imageBase a els ≤ a := by
  induction els generalizing a with
  | nil => simp [imageBase]
  | cons e es ih =>
    simp only [imageBase, List.foldl_cons]
    by_cases h : a > e.address
    · rw [if_pos h]
      exact le_trans (by simpa [imageBase] using ih e.address) (le_of_lt h)
    · rw [if_neg h]
      simpa [imageBase] using ih a

/-- Helper: the start-address fold is a lower bound on every element
address. -/
theorem imageBase_le_mem (a : Nat) (els : List ImageElement) :
    ∀ e ∈ els, imageBase a els ≤ e.address := by
  induction els generalizing a with
  | nil => simp
  | cons e es ih =>
    intro x hx
    rcases List.mem_cons.mp hx with hx | hx
    · subst hx
      simp only [imageBase, List.foldl_cons]
      by_cases h : a > x.address
      · rw [if_pos h]
        simpa [imageBase] using imageBase_le_init x.address es
      · rw [if_neg h]
        exact le_trans (by simpa [imageBase] using imageBase_le_init a es) (by omega)
    · simp only [imageBase, List.foldl_cons]
      by_cases h : a > e.address
      · rw [if_pos h]
        simpa [imageBase] using ih e.address x hx
      · rw [if_neg h]
        simpa [imageBase] using ih a x hx

/-- Helper: the start-address fold yields its initial value or the address
of some element. -/
theorem imageBase_mem (a : Nat) (els : List ImageElement) :
    imageBase a els = a ∨ ∃ e ∈ els, imageBase a els = e.address := by
  induction els generalizing a with
  | nil => exact Or.inl rfl
  | cons e es ih =>
    simp only [imageBase, List.foldl_cons]
    by_cases h : a > e.address
    · rw [if_pos h]
      rcases ih e.address with h' | ⟨x, hx, h'⟩
      · exact Or.inr ⟨e, List.mem_cons_self e es, by simpa [imageBase] using h'⟩
      · exact Or.inr ⟨x, List.mem_cons_of_mem _ hx, by simpa [imageBase] using h'⟩
    · rw [if_neg h]
      rcases ih a with h' | ⟨x, hx, h'⟩
      · exact Or.inl (by simpa [imageBase] using h')
      · exact Or.inr ⟨x, List.mem_cons_of_mem _ hx, by simpa [imageBase] using h'⟩

/-- Helper: when the base is a lower bound on every address, the write loop
never sees a negative seek and its sink holds the fold of the writes. -/
theorem mergeGo_ok (base : Nat) (els : List ImageElement) (s : Sink)
    (h : ∀ e ∈ els, base ≤ e.address) :
    ∃ p, mergeGo base els s =
      .ok ⟨els.foldl (fun c e => writeAt c (e.address - base) e.data) s.content, p⟩ := by
  induction els generalizing s with
  | nil => exact ⟨s.pos, by simp [mergeGo]⟩
  | cons e es ih =>
    have hbase : base ≤ e.address := h e (List.mem_cons_self e es)
    have hseek : Sink.seek ((e.address : Int) - (base : Int)) s =
        .ok ⟨s.content, e.address - base⟩ := by
      unfold Sink.seek
      rw [if_neg (by omega)]
      congr 1
      congr 1
      omega
    simp only [mergeGo, hseek]
    have := ih (Sink.write e.data ⟨s.content, e.address - base⟩)
      (fun x hx => h x (List.mem_cons_of_mem _ hx))
    simpa [Sink.write] using this

/-- Helper: the fields of a successfully unpacked target header, expressed
on the underlying byte list. -/
theorem unpackTargetHeader_fields {l : List Nat} {tp : TargetHeader}
    (h : unpackTargetHeader (l.take 274) = .ok tp) :
    tp.is_target_named = leNat ((l.drop 7).take 4)
    ∧ tp.target_name = (l.drop 11).take 255
    ∧ tp.element_count = leNat ((l.drop 270).take 4)
    ∧ tp.alternate_setting = leNat ((l.drop 6).take 1) := by
  unfold unpackTargetHeader at h
  split at h
  · cases h
    refine ⟨?_, ?_, ?_, ?_⟩ <;>
      simp [List.drop_take, List.take_take]
  · cases h

/-- Helper: the shape of a successful `read_image`: the target header
unpacks, the element loop succeeds, and the image's name is decoded from
the raw name field exactly when `is_target_named` is nonzero. -/
theorem read_image_ok_shape {f : ByteFile} {img : Image} {f' : ByteFile}
    (h : read_image f = .ok (img, f')) :
    ∃ tp els,
      unpackTargetHeader (readN 274 f).1 = .ok tp
      ∧ read_image_elements tp.element_count (readN 274 f).2 = .ok (els, f')
      ∧ img.elements = els
      ∧ img.alternate_setting = tp.alternate_setting
      ∧ ((tp.is_target_named = 0 ∧ img.target_name = none)
        ∨ (tp.is_target_named ≠ 0
            ∧ ∃ s, c_str_to_str tp.target_name = .ok s ∧ img.target_name = some s)) := by
  unfold read_image at h
  dsimp only at h
  split at h
  · cases h
  · rename_i tp htp
    split at h
    · cases h
    · rename_i els f2 hels
      split at h
      · rename_i hnz
        split at h
        · cases h
        · rename_i s hstr
          cases h
          exact ⟨tp, els, htp, hels, rfl, rfl, Or.inr ⟨hnz, s, hstr, rfl⟩⟩
      · rename_i hz
        cases h
        exact ⟨tp, els, htp, hels, rfl, rfl, Or.inl ⟨by simpa using hz, rfl⟩⟩

/-- Helper: an `unpackTargetHeader` failure is a short-buffer error. -/
theorem unpackTargetHeader_error {bs : List Nat} {e : PErr}
    (h : unpackTargetHeader bs = .error e) : e = .structError := by
  unfold unpackTargetHeader at h
  split at h
  · cases h
  · cases h
    rfl

/-- Helper: a whole-decode CRC-mismatch failure can only come from the
suffix reader; the header and image stages never produce that error. -/
theorem decode_crc_error_from_suffix {ig : Bool} {d : List Nat}
    (h : decodeDfuse ig d = .error .suffixCrcMismatch) :
    read_dfu_suffix ig ⟨d, 0⟩ = .error .suffixCrcMismatch := by
  unfold decodeDfuse at h
  split at h
  · cases h
    assumption
  · split at h
    · cases h
      rename_i hhdr
      rcases read_dfu_header_error hhdr with h' | h' | h' <;> cases h'
    · split at h
      · cases h
        rename_i himgs
        rcases read_images_error himgs with h' | h' <;> cases h'
      · cases h

/-- C1: the claim fails and the code is wrong: `save_metadata`'s element
record in src/dfuse_extract.py computes `len(image_element)` — the length
of the 2-field namedtuple, which is 2 for every element — instead of
`len(image_element.data)`, so the exported size equals the decoded payload
length only for payloads that happen to have length 2; for the sample
element with a 4-byte payload the exported size is 2.  In
src/dfuse-extract.py the exported size is the header size field, which
differs from the actually decoded payload length on a truncated element. -/
theorem c1_metadata_size_is_field_count :
    (∀ e : ImageElement, (image_element_metadata e).size = 2)
    ∧ (image_element_metadata ⟨0x1000, [0xAA, 0xAA, 0xAA, 0xAA]⟩).size ≠
        (⟨0x1000, [0xAA, 0xAA, 0xAA, 0xAA]⟩ : ImageElement).data.length
    ∧ (Hyphen.read_image_element true ⟨[0, 0, 0, 0, 4, 0, 0, 0, 0xAA], 0⟩
        = .ok (⟨0, 4, some [0xAA]⟩, ⟨[0, 0, 0, 0, 4, 0, 0, 0, 0xAA], 9⟩)
      ∧ (Hyphen.image_element_metadata ⟨0, 4, some [0xAA]⟩).size = 4
      ∧ ([0xAA] : List Nat).length = 1) :=
  ⟨fun _ => rfl, by decide, by decide, by decide, by decide⟩

/-- C2 counterexample: on an input whose element header declares size 4
with a single payload byte remaining, the element decoder does not fail at
all — in particular not with UnexpectedEof — and returns an element whose
payload is shorter than the declared size. -/
theorem c2_counterexample :
    read_image_element ⟨[0, 0, 0, 0, 4, 0, 0, 0, 0xAA], 0⟩
      = .ok (⟨0, [0xAA]⟩, ⟨[0, 0, 0, 0, 4, 0, 0, 0, 0xAA], 9⟩)
    ∧ read_image_element ⟨[0, 0, 0, 0, 4, 0, 0, 0, 0xAA], 0⟩
        ≠ .error .unexpectedEof
    ∧ ([0xAA] : List Nat).length < 4 := by
  refine ⟨by decide, by decide, by decide⟩

/-- C2 (amended): when an element header declares a size larger than the
bytes remaining, the element decoder returns successfully; the payload is
exactly the remaining bytes, hence shorter than the declared size.  The
decoder can never fail with UnexpectedEof, and the element loop never
silently returns fewer elements than the declared element count. -/
theorem c2_truncated_element_silently_short (data : List Nat) (pos : Nat)
    (h8 : 8 ≤ (data.drop pos).length)
    (hsz : data.length - (pos + 8) < leNat (((data.drop pos).drop 4).take 4)) :
    (read_image_element ⟨data, pos⟩
        = .ok (⟨leNat ((data.drop pos).take 4), data.drop (pos + 8)⟩, ⟨data, data.length⟩)
      ∧ (data.drop (pos + 8)).length < leNat (((data.drop pos).drop 4).take 4))
    ∧ (∀ f : ByteFile, read_image_element f ≠ .error .unexpectedEof)
    ∧ (∀ (n : Nat) (f : ByteFile) (r : List ImageElement × ByteFile),
        read_image_elements n f = .ok r → r.1.length = n) := by
  have hlen8 : ((data.drop pos).take 8).length = 8 := by
    rw [List.length_take]
    omega
  have hdl : (data.drop (pos + 8)).length = data.length - (pos + 8) :=
    List.length_drop ..
  refine ⟨⟨?_, by omega⟩, ?_, read_image_elements_length⟩
  · unfold read_image_element
    dsimp only [readN]
    rw [if_pos hlen8, hlen8]
    rw [List.take_take, List.drop_take]
    rw [show min 4 8 = 4 from rfl, show (8 : Nat) - 4 = 4 from rfl]
    have htk : (data.drop (pos + 8)).take (leNat (((data.drop pos).drop 4).take 4))
        = data.drop (pos + 8) :=
      List.take_of_length_le (by omega)
    rw [htk]
    have h1 : (data.drop pos).length = data.length - pos := List.length_drop ..
    simp only [Except.ok.injEq, Prod.mk.injEq, ImageElement.mk.injEq, ByteFile.mk.injEq,
      true_and, and_true]
    omega
  · intro f hcontr
    have := read_image_element_error hcontr
    cases this

/-- C2 witness: the amended theorem evaluated on the truncated sample
element. -/
theorem c2_witness :
    read_image_element ⟨[0, 0, 0, 0, 4, 0, 0, 0, 0xAA], 0⟩
      = .ok (⟨0, [0xAA]⟩, ⟨[0, 0, 0, 0, 4, 0, 0, 0, 0xAA], 9⟩) := by
  have := (c2_truncated_element_silently_short [0, 0, 0, 0, 4, 0, 0, 0, 0xAA] 0
    (by decide) (by decide)).1.1
  exact this

/-- C3 counterexample: per-image merge extraction of an image with zero
elements does not fail with the typed EmptyImage error the claim names: it
fails with the unhandled IndexError from `image.elements[0]`. -/
theorem c3_counterexample :
    extract_single_image 0 ⟨0, none, []⟩ = .error .indexError
    ∧ extract_single_image 0 ⟨0, none, []⟩ ≠ .error .emptyImage := by
  refine ⟨by decide, by decide⟩

/-- C3 (amended): per-image merge extraction of an image with zero elements
fails fast with the unhandled IndexError raised by `image.elements[0]`
(not a typed EmptyImage decode failure), before any output sink is opened:
no filename/content pair is produced for that image. -/
theorem c3_empty_image_index_error (i : Nat) (image : Image)
    (h : image.elements = []) :
    extract_single_image i image = .error .indexError := by
  unfold extract_single_image
  rw [h]

/-- C3 witness: the amended theorem evaluated on a concrete empty image. -/
theorem c3_witness : extract_single_image 0 ⟨0, none, []⟩ = .error .indexError :=
  c3_empty_image_index_error 0 ⟨0, none, []⟩ rfl

/-- C4: per-image merge extraction with at least one element succeeds;
the base is the least element address (a lower bound that is attained),
the sink is named `image<i>_0x<BASE>.bin` with the base in uppercase hex,
and the content is the fold that writes each payload in decode order at
offset `address - base`; on the two-element sample image the base is
0x1000, the first payload lands at offset 0 and the second at offset 8. -/
theorem c4_extract_single_merge (i : Nat) (image : Image) (e0 : ImageElement)
    (rest : List ImageElement) (h : image.elements = e0 :: rest) :
    (extract_single_image i image =
        .ok ("image" ++ toString i ++ "_0x"
              ++ natToHexUpper (imageBase e0.address image.elements) ++ ".bin",
             mergeWrites (imageBase e0.address image.elements) image.elements))
    ∧ (∀ e ∈ image.elements, imageBase e0.address image.elements ≤ e.address)
    ∧ (∃ e ∈ image.elements, imageBase e0.address image.elements = e.address)
    ∧ (extract_single_image 0
          ⟨0, none, [⟨0x1000, [0xAA, 0xAA, 0xAA, 0xAA]⟩, ⟨0x1008, [0xBB, 0xBB, 0xBB, 0xBB]⟩]⟩
        = .ok ("image0_0x1000.bin",
            [0xAA, 0xAA, 0xAA, 0xAA, 0, 0, 0, 0, 0xBB, 0xBB, 0xBB, 0xBB])
      ∧ 12 ≤ ([0xAA, 0xAA, 0xAA, 0xAA, 0, 0, 0, 0, 0xBB, 0xBB, 0xBB, 0xBB] : List Nat).length
      ∧ ([0xAA, 0xAA, 0xAA, 0xAA, 0, 0, 0, 0, 0xBB, 0xBB, 0xBB, 0xBB] : List Nat).take 4
          = [0xAA, 0xAA, 0xAA, 0xAA]
      ∧ (([0xAA, 0xAA, 0xAA, 0xAA, 0, 0, 0, 0, 0xBB, 0xBB, 0xBB, 0xBB] : List Nat).drop 8).take 4
          = [0xBB, 0xBB, 0xBB, 0xBB]) := by
  obtain ⟨alt, nm, els⟩ := image
  simp only at h
  subst h
  have hlb := imageBase_le_mem e0.address (e0 :: rest)
  refine ⟨?_, hlb, ?_, by decide, by decide, by decide, by decide⟩
  · obtain ⟨p, hgo⟩ := mergeGo_ok (imageBase e0.address (e0 :: rest)) (e0 :: rest) ⟨[], 0⟩ hlb
    unfold extract_single_image
    dsimp only
    rw [hgo]
    exact rfl
  · rcases imageBase_mem e0.address (e0 :: rest) with hm | ⟨x, hx, hm⟩
    · exact ⟨e0, List.mem_cons_self e0 rest, hm⟩
    · exact ⟨x, hx, hm⟩

/-- C4 witness: the theorem evaluated on the two-element sample image. -/
theorem c4_witness :
    extract_single_image 0
        ⟨0, none, [⟨0x1000, [0xAA, 0xAA, 0xAA, 0xAA]⟩, ⟨0x1008, [0xBB, 0xBB, 0xBB, 0xBB]⟩]⟩
      = .ok ("image0_0x1000.bin",
          [0xAA, 0xAA, 0xAA, 0xAA, 0, 0, 0, 0, 0xBB, 0xBB, 0xBB, 0xBB]) :=
  (c4_extract_single_merge 0
    ⟨0, none, [⟨0x1000, [0xAA, 0xAA, 0xAA, 0xAA]⟩, ⟨0x1008, [0xBB, 0xBB, 0xBB, 0xBB]⟩]⟩
    ⟨0x1000, [0xAA, 0xAA, 0xAA, 0xAA]⟩ [⟨0x1008, [0xBB, 0xBB, 0xBB, 0xBB]⟩] rfl).2.2.2.1

set_option maxRecDepth 8192 in
/-- C5 counterexample: an input whose stored CRC differs from the
recomputed CRC but whose suffix signature is also invalid fails with the
signature mismatch, not with the suffix-CRC-mismatch error the claim
requires for every such input. -/
theorem c5_counterexample :
    storedCrc (List.replicate 16 0) ≠ computedCrc (List.replicate 16 0)
    ∧ decodeDfuse false (List.replicate 16 0) = .error .suffixSignatureMismatch
    ∧ PErr.suffixSignatureMismatch ≠ PErr.suffixCrcMismatch := by
  refine ⟨by decide, by decide, by decide⟩

/-- C5 (amended): on every input that reaches the CRC comparison (at least
16 bytes and a valid UFD suffix signature) whose stored CRC differs from
the recomputed one: without ignore-CRC the whole decode fails with the
suffix-CRC-mismatch error; with ignore-CRC the suffix reader returns
successfully surfacing exactly the non-fatal ignored-CRC warning, and
decoding continues (completing whenever the remaining structure is
well-formed).  Moreover the CRC check is the only mismatch with such an
override: with ignore-CRC set a decode never fails with the CRC mismatch,
any non-CRC failure of the strict decode happens identically with the flag
set, and any failure under the flag is either the same failure of the
strict decode or hides exactly the strict decode's CRC mismatch. -/
theorem c5_crc_mismatch_behaviour (data : List Nat)
    (hlen : 16 ≤ data.length)
    (hsig : storedSuffixSig data = ufdSignature)
    (hcrc : storedCrc data ≠ computedCrc data) :
    decodeDfuse false data = .error .suffixCrcMismatch
    ∧ (∃ s, read_dfu_suffix true ⟨data, 0⟩ = .ok (s, [Warning.crcIgnored], ⟨data, 0⟩))
    ∧ (∀ d : List Nat, decodeDfuse true d ≠ .error .suffixCrcMismatch)
    ∧ (∀ (d : List Nat) (e : PErr), decodeDfuse false d = .error e →
        e ≠ .suffixCrcMismatch → decodeDfuse true d = .error e)
    ∧ (∀ (d : List Nat) (e : PErr), decodeDfuse true d = .error e →
        decodeDfuse false d = .error e
          ∨ decodeDfuse false d = .error .suffixCrcMismatch) := by
  obtain ⟨hfalse, s, htrue, -, -⟩ := read_dfu_suffix_crc_mismatch data hlen hsig hcrc
  refine ⟨?_, ⟨s, htrue⟩, ?_, ?_, ?_⟩
  · unfold decodeDfuse
    rw [hfalse]
  · intro d hcontr
    have hsuf := decode_crc_error_from_suffix hcontr
    rcases read_dfu_suffix_ignore ⟨d, 0⟩ with ⟨heq, hne, -⟩ | ⟨-, s', f', hok⟩
    · rw [heq] at hsuf
      exact hne hsuf
    · rw [hok] at hsuf
      cases hsuf
  · intro d e hfe hne
    rcases read_dfu_suffix_ignore ⟨d, 0⟩ with ⟨heq, -, -⟩ | ⟨hcrcm, -, -, -⟩
    · unfold decodeDfuse at hfe ⊢
      rw [heq]
      exact hfe
    · unfold decodeDfuse at hfe
      rw [hcrcm] at hfe
      cases hfe
      exact absurd rfl hne
  · intro d e hte
    rcases read_dfu_suffix_ignore ⟨d, 0⟩ with ⟨heq, -, -⟩ | ⟨hcrcm, -, -, -⟩
    · left
      unfold decodeDfuse at hte ⊢
      rw [← heq]
      exact hte
    · right
      unfold decodeDfuse
      rw [hcrcm]

set_option maxRecDepth 8192 in
/-- C5 witness: the amended theorem evaluated on the 16-byte suffix-only
input with a wrong stored CRC. -/
theorem c5_witness : decodeDfuse false suffixOnly16 = .error .suffixCrcMismatch :=
  (c5_crc_mismatch_behaviour suffixOnly16 (by decide) (by decide) (by decide)).1

/-- Helper: whenever the suffix reader returns successfully, the returned
source has its contents unchanged and its read position restored to 0. -/
theorem read_dfu_suffix_ok_state {ig : Bool} {f : ByteFile} {s : DFUSuffix}
    {ws : List Warning} {f' : ByteFile}
    (h : read_dfu_suffix ig f = .ok (s, ws, f')) :
    f'.data = f.data ∧ f'.pos = 0 := by
  unfold read_dfu_suffix at h
  split at h
  · cases h
  · rename_i f1 hseek
    have hd := (seekEnd_ok hseek).1
    dsimp only at h
    split at h
    · cases h
    · split at h
      · split at h
        · cases h
          simp [readN, readAll, seekAbs, hd]
        · split at h
          · cases h
            simp [readN, readAll, seekAbs, hd]
          · cases h
      · cases h

/-- C6: whenever the suffix reader returns successfully, the source's read
position has been restored to offset 0 and its contents are unchanged, so
the subsequent 11-byte header read returns the first 11 bytes of the
file. -/
theorem c6_suffix_restores_position (ig : Bool) (f : ByteFile) (s : DFUSuffix)
    (ws : List Warning) (f' : ByteFile)
    (h : read_dfu_suffix ig f = .ok (s, ws, f')) :
    f'.pos = 0 ∧ f'.data = f.data ∧ (readN 11 f').1 = f.data.take 11 := by
  obtain ⟨hdata, hpos⟩ := read_dfu_suffix_ok_state h
  refine ⟨hpos, hdata, ?_⟩
  simp [readN, hdata, hpos]

set_option maxRecDepth 8192 in
/-- C6 witness: the theorem evaluated on the 16-byte suffix-only input
(read with ignore-CRC, since its stored CRC is wrong). -/
theorem c6_witness :
    (⟨suffixOnly16, 0⟩ : ByteFile).pos = 0
    ∧ (⟨suffixOnly16, 0⟩ : ByteFile).data = (⟨suffixOnly16, 0⟩ : ByteFile).data
    ∧ (readN 11 (⟨suffixOnly16, 0⟩ : ByteFile)).1 = (⟨suffixOnly16, 0⟩ : ByteFile).data.take 11 :=
  c6_suffix_restores_position true ⟨suffixOnly16, 0⟩
    ⟨0, 0, 0, 0, ufdSignature, 16, 0⟩ [Warning.crcIgnored] ⟨suffixOnly16, 0⟩
    (by decide)

/-- C7: for every successfully decoded image, a zero `is_target_named`
field yields an absent target name whatever the 255 name-field bytes hold
(they are not even decoded: with the field zero the image reader can never
fail with a Unicode decode error), and a nonzero field yields the name
obtained by taking the name-field bytes up to the first null byte and
decoding them as ASCII. -/
theorem c7_target_name_decoding :
    (∀ (f : ByteFile) (image : Image) (f' : ByteFile),
      read_image f = .ok (image, f') →
        (targetNamedField f = 0 → image.target_name = none)
        ∧ (targetNamedField f ≠ 0 →
            ∃ s, c_str_to_str (nameField f) = .ok s ∧ image.target_name = some s))
    ∧ (∀ f : ByteFile, targetNamedField f = 0 →
        read_image f ≠ .error .unicodeDecodeError) := by
  constructor
  · intro f image f' h
    obtain ⟨tp, els, htp, hels, helems, halt, hname⟩ := read_image_ok_shape h
    obtain ⟨hfld, hnm, hcnt, hast⟩ :=
      unpackTargetHeader_fields (l := f.data.drop f.pos) htp
    have hfld' : tp.is_target_named = targetNamedField f := hfld
    have hnm' : tp.target_name = nameField f := hnm
    constructor
    · intro h0
      rcases hname with ⟨-, hn⟩ | ⟨hnz, -⟩
      · exact hn
      · exact absurd (hfld'.trans h0) hnz
    · intro hnz
      rcases hname with ⟨h0, -⟩ | ⟨-, s, hstr, hn⟩
      · exact absurd (hfld'.symm.trans h0) hnz
      · rw [hnm'] at hstr
        exact ⟨s, hstr, hn⟩
  · intro f h0 hcontr
    unfold read_image at hcontr
    dsimp only at hcontr
    split at hcontr
    · cases hcontr
      have := unpackTargetHeader_error (by assumption)
      cases this
    · rename_i tp htp
      split at hcontr
      · cases hcontr
        have := read_image_elements_error (by assumption)
        cases this
      · rename_i els f2 hels
        split at hcontr
        · rename_i hnz
          obtain ⟨hfld, -, -, -⟩ :=
            unpackTargetHeader_fields (l := f.data.drop f.pos) htp
          have hfld' : tp.is_target_named = targetNamedField f := hfld
          exact hnz (hfld'.trans h0)
        · cases hcontr

set_option maxRecDepth 16384 in
/-- C7 witness: the theorem evaluated on the sample target header with
`is_target_named` 1 and name field `'ABC'`. -/
theorem c7_witness :
    ∃ s, c_str_to_str (nameField ⟨sampleTarget274 ++ sampleElement12, 0⟩) = .ok s
      ∧ (⟨7, some "ABC", [⟨0x1000, [0xAA, 0xAA, 0xAA, 0xAA]⟩]⟩ : Image).target_name = some s :=
  (c7_target_name_decoding.1 ⟨sampleTarget274 ++ sampleElement12, 0⟩
    ⟨7, some "ABC", [⟨0x1000, [0xAA, 0xAA, 0xAA, 0xAA]⟩]⟩
    ⟨sampleTarget274 ++ sampleElement12, 286⟩
    (by decide)).2 (by decide)

/-- C8: every decode loop is bounded by its decoded count: on success the
element loop returns exactly the requested number of elements, the image
loop exactly the requested number of images, and a completed decode holds
exactly `image_count` images, where `image_count` is the count decoded from
the 11-byte header at the start of the input.  (All decoder functions are
structurally recursive total functions, so decoding terminates on every
input.) -/
theorem c8_loops_bounded :
    (∀ (n : Nat) (f : ByteFile) (r : List ImageElement × ByteFile),
        read_image_elements n f = .ok r → r.1.length = n)
    ∧ (∀ (n : Nat) (f : ByteFile) (r : List Image × ByteFile),
        read_images n f = .ok r → r.1.length = n)
    ∧ (∀ (ig : Bool) (data : List Nat) (r : DfuseFile × List Warning),
        decodeDfuse ig data = .ok r →
          ∃ hdr f2, read_dfu_header ⟨data, 0⟩ = .ok (hdr, f2)
            ∧ r.1.images.length = hdr.image_count) := by
  refine ⟨read_image_elements_length, read_images_length, ?_⟩
  intro ig data r h
  unfold decodeDfuse at h
  split at h
  · cases h
  · rename_i s ws f1 hsuf
    obtain ⟨hdata, hpos⟩ := read_dfu_suffix_ok_state hsuf
    have hf1 : f1 = ⟨data, 0⟩ := by
      cases f1
      simp_all
    subst hf1
    split at h
    · cases h
    · rename_i hdr f2 hhdr
      split at h
      · cases h
      · rename_i imgs f3 himgs
        cases h
        exact ⟨hdr, f2, hhdr, read_images_length _ _ _ himgs⟩

set_option maxRecDepth 16384 in
/-- C8 witness: the theorem evaluated on a complete zero-image file
(decoded with ignore-CRC): zero images, as the header's image_count says. -/
theorem c8_witness :
    ∃ hdr f2, read_dfu_header ⟨emptyImagesFile, 0⟩ = .ok (hdr, f2)
      ∧ ((⟨⟨0, 0, 0, 0, ufdSignature, 16, 0⟩, []⟩ : DfuseFile),
         [Warning.crcIgnored]).1.images.length = hdr.image_count :=
  c8_loops_bounded.2.2 true emptyImagesFile
    (⟨⟨0, 0, 0, 0, ufdSignature, 16, 0⟩, []⟩, [Warning.crcIgnored])
    (by decide)

/-- C9: decoding is a pure function of the input bytes and the ignore-CRC
configuration, so running it twice on the same bytes yields structurally
equal results (same images in the same order with equal fields). -/
theorem c9_decode_deterministic (ig : Bool) (data : List Nat) :
    decodeDfuse ig data = decodeDfuse ig data := rfl

/-- C10: a decoded image whose `is_target_named` field is nonzero but whose
name field begins with a null byte gets the empty target name, and the
metadata exporter omits the `target_name` key for it — its image record is
identical to the record of the same image with an absent name. -/
theorem c10_empty_name_indistinguishable (f : ByteFile) (image : Image) (f' : ByteFile)
    (h : read_image f = .ok (image, f'))
    (hnz : targetNamedField f ≠ 0)
    (hnull : (nameField f).head? = some 0) :
    image.target_name = some ""
    ∧ (image_metadata image).target_name = none
    ∧ image_metadata image = image_metadata { image with target_name := none } := by
  obtain ⟨tp, els, htp, hels, helems, halt, hname⟩ := read_image_ok_shape h
  obtain ⟨hfld, hnm, -, -⟩ := unpackTargetHeader_fields (l := f.data.drop f.pos) htp
  have hfld' : tp.is_target_named = targetNamedField f := hfld
  have hnm' : tp.target_name = nameField f := hnm
  rcases hname with ⟨h0, -⟩ | ⟨-, s, hstr, hn⟩
  · exact absurd (hfld'.symm.trans h0) hnz
  · rw [hnm'] at hstr
    obtain ⟨b, rest, hcons⟩ : ∃ b rest, nameField f = b :: rest := by
      cases hx : nameField f with
      | nil => rw [hx] at hnull; cases hnull
      | cons b rest => exact ⟨b, rest, rfl⟩
    have hb : b = 0 := by
      rw [hcons] at hnull
      simpa using hnull
    subst hb
    rw [hcons] at hstr
    have hempty : c_str_to_str (0 :: rest) = .ok "" := rfl
    rw [hempty] at hstr
    cases hstr
    refine ⟨hn, ?_, ?_⟩
    · simp [image_metadata, pyTruthy, hn]
    · simp [image_metadata, pyTruthy, hn]

set_option maxRecDepth 16384 in
/-- C10 witness: the theorem evaluated on the target header whose name flag
is 1 and whose name field is all null bytes. -/
theorem c10_witness :
    (⟨3, some "", []⟩ : Image).target_name = some ""
    ∧ (image_metadata ⟨3, some "", []⟩).target_name = none
    ∧ image_metadata ⟨3, some "", []⟩
        = image_metadata { (⟨3, some "", []⟩ : Image) with target_name := none } :=
  c10_empty_name_indistinguishable ⟨nullNamedTarget274, 0⟩ ⟨3, some "", []⟩
    ⟨nullNamedTarget274, 274⟩ (by decide) (by decide) (by decide)
